import Mathlib

/-!
# Verification of the decision core of `decision_receive.py`

This file gives a shallow embedding of the decision-making behaviour in
`packages/valory/skills/decision_maker_abci/behaviours/decision_receive.py`
and proves properties of it.

The Python source performs several arithmetic steps with CPython's binary64
floating-point true division (`/` on `int` operands yields a correctly
rounded `float`; `int(...)` truncates towards zero).  We model binary64
values exactly as dyadic rationals `m * 2 ^ e` and implement the correctly
rounded (round-to-nearest, ties-to-even) operations on them.  The model
assumes results stay in the normal range of binary64 (no overflow and no
subnormals), which holds for all quantities appearing in the claims.
-/

set_option maxRecDepth 20000

/-- Fuel-driven base-2 logarithm: `ilog2Fuel fuel n = ⌊log₂ n⌋` for `1 ≤ n < 2 ^ fuel`
(and `0` for `n ≤ 1`).  Structural recursion on the fuel keeps it kernel-reducible. -/
def ilog2Fuel : ℕ → ℕ → ℕ
  | 0, _ => 0
  | fuel + 1, n => if n ≤ 1 then 0 else ilog2Fuel fuel (n / 2) + 1

/-- `⌊log₂ n⌋` for the magnitudes occurring here (all well below `2 ^ 400`). -/
def lg (n : ℕ) : ℕ := ilog2Fuel 400 n

/-- Round `p / q` (with `q > 0`) to the nearest natural number, ties to even. -/
def rne (p q : ℕ) : ℕ :=
  let d := p / q
  let r := p % q
  if 2 * r < q then d
  else if q < 2 * r then d + 1
  else if d % 2 = 0 then d else d + 1

/-- A binary64 value represented exactly as the dyadic rational `m * 2 ^ e`. -/
structure F where
  m : ℤ
  e : ℤ
  deriving DecidableEq, Repr

/-- The rational value denoted by a dyadic `F`. -/
def F.toRat (x : F) : ℚ := (x.m : ℚ) * 2 ^ x.e

/-- Decide whether `n / d ≥ 2 ^ s` (for `d > 0`), by exact integer comparison. -/
def gePow2 (n d : ℕ) (s : ℤ) : Bool :=
  if 0 ≤ s then d * 2 ^ s.toNat ≤ n else d ≤ n * 2 ^ (-s).toNat

/-- Correctly rounded binary64 value of `n / d` for naturals (`d > 0`):
round-to-nearest, ties-to-even, assuming the result is in the normal range. -/
def rnd64Pos (n d : ℕ) : F :=
  if n = 0 then ⟨0, 0⟩ else
  let s : ℤ := (lg n : ℤ) - (lg d : ℤ)
  let b : ℤ := if gePow2 n d s then s else s - 1
  let e : ℤ := b - 52
  let m : ℕ := if 0 ≤ e then rne n (d * 2 ^ e.toNat) else rne (n * 2 ^ (-e).toNat) d
  if m = 2 ^ 53 then ⟨2 ^ 52, e + 1⟩ else ⟨m, e⟩

/-- Correctly rounded binary64 value of `a / b` for integers.  `b = 0` would be a
`ZeroDivisionError` in Python; we return a junk zero there (unreached in the claims). -/
def rnd64 (a b : ℤ) : F :=
  if b = 0 then ⟨0, 0⟩ else
  let pos := rnd64Pos a.natAbs b.natAbs
  if 0 ≤ a * b then pos else ⟨-pos.m, pos.e⟩

/-- Scaling a binary64 value by a power of two is exact. -/
def fShift (x : F) (t : ℤ) : F := ⟨x.m, x.e + t⟩

/-- Binary64 division of two binary64 values (correctly rounded). -/
def fdiv (x y : F) : F := fShift (rnd64 x.m y.m) (x.e - y.e)

/-- Binary64 multiplication of two binary64 values (correctly rounded). -/
def fmul (x y : F) : F := fShift (rnd64 (x.m * y.m) 1) (x.e + y.e)

/-- Conversion of a Python `int` to a `float` (correctly rounded). -/
def ofInt (z : ℤ) : F := rnd64 z 1

/-- Python's `int(x)` on a `float`: truncation towards zero. -/
def pyInt (x : F) : ℤ :=
  if 0 ≤ x.e then x.m * 2 ^ x.e.toNat else x.m.tdiv (2 ^ (-x.e).toNat)

/-- Python's true division of two ints followed by `int(...)`, as in
`int(k / denom)` in the source. -/
def intDivFloat (a b : ℤ) : F := rnd64 a b

/-! ## The pool snapshot (`Bet`)

The `Bet` class itself lives in `market_manager_abci/bets.py`, outside the
provided sources; its fields below are the ones `decision_receive.py` reads,
following the spec's Pool data model (§3) and the construction site in
`_is_profitable`.  `BINARY_N_SLOTS` is the fixed outcome count 2 (§3). -/

def BINARY_N_SLOTS : ℕ := 2

structure Bet where
  fee : ℕ
  outcomeSlotCount : ℕ
  outcomeTokenAmounts : List ℤ
  outcomeTokenMarginalPrices : Option (List F)
  scaledLiquidityMeasure : ℕ
  deriving DecidableEq, Repr

/-- Embedding of `_get_bet_sample_info`: the reserves of the selected and the
opposite outcome (`opposite_vote = vote ^ 1`). -/
def getBetSampleInfo (bet : Bet) (vote : ℕ) : ℤ × ℤ :=
  (bet.outcomeTokenAmounts.getD vote 0, bet.outcomeTokenAmounts.getD (vote ^^^ 1) 0)

/-- `int(k / denom)` from `_calc_binary_shares`: binary64 true division of the
pool invariant `k` by the opposite-side balance, truncated towards zero. -/
def tokensRemainingInPool (k denom : ℤ) : ℤ := pyInt (intDivFloat k denom)

/-- Embedding of `_calc_binary_shares`.  The Python code pops elements out of
the two-element lists; for a binary market with `vote < 2` this selects index
`vote` and index `vote ^ 1`, which is how we model it.  Returns
`(num_shares, available_shares)`; `(0, 0)` when the marginal prices are `None`. -/
def calcBinaryShares (bet : Bet) (netBetAmount : ℤ) (vote : ℕ) : ℤ × ℤ :=
  let tokenAmounts := bet.outcomeTokenAmounts
  let k : ℤ := tokenAmounts.foldl (· * ·) 1
  let betPerToken : F := intDivFloat netBetAmount (BINARY_N_SLOTS : ℤ)
  match bet.outcomeTokenMarginalPrices with
  | none => (0, 0)
  | some prices =>
    let tokensTraded : List ℤ :=
      (List.range BINARY_N_SLOTS).map (fun i => pyInt (fdiv betPerToken (prices.getD i ⟨0, 0⟩)))
    let selectedShares := tokensTraded.getD vote 0
    let otherShares := tokensTraded.getD (vote ^^^ 1) 0
    let selectedTypeTokensInPool := tokenAmounts.getD vote 0
    let otherTokensInPool := tokenAmounts.getD (vote ^^^ 1) 0
    let remaining := tokensRemainingInPool k (otherTokensInPool + otherShares)
    let swappedShares := selectedTypeTokensInPool - remaining
    let numShares := selectedShares + swappedShares
    let availableShares := pyInt (fmul (ofInt selectedTypeTokensInPool) (prices.getD vote ⟨0, 0⟩))
    (numShares, availableShares)

/-- Modelled from the spec: `remove_fraction_wei` is defined in
`behaviours/base.py`, which is not among the sources.  Spec §4.4 step 4:
`netStake = stake − floor(stake × fee)`, where the fee fraction is the wei
fee divided by `10^18` (`wei_to_native`). -/
def removeFractionWei (amount : ℤ) (feeWei : ℕ) : ℤ :=
  amount - Int.fdiv (amount * feeWei) (10 ^ 18)

/-- The fixed synthetic pool used by `_is_profitable` in benchmarking mode:
`int(10e18) = 10^19` tokens on each side, marginal prices `0.5 = 2⁻¹`,
two outcome slots, fee from the benchmarking configuration. -/
def mockBet (poolFee : ℕ) : Bet :=
  { fee := poolFee
    outcomeSlotCount := 2
    outcomeTokenAmounts := [10 ^ 19, 10 ^ 19]
    outcomeTokenMarginalPrices := some [⟨1, -1⟩, ⟨1, -1⟩]
    scaledLiquidityMeasure := 10 }

/-- The pool `_is_profitable` evaluates against: the sampled live market, or
the fixed synthetic pool when benchmarking mode is enabled. -/
def chooseBet (benchmarkingEnabled : Bool) (poolFee : ℕ) (sampledBet : Bet) : Bet :=
  if benchmarkingEnabled then mockBet poolFee else sampledBet

/-- The profit threshold actually applied: the configured one, or `0` when the
configured one is non-positive (`if bet_threshold <= 0: bet_threshold = 0`). -/
def effectiveThreshold (betThreshold : ℤ) : ℤ :=
  if betThreshold ≤ 0 then 0 else betThreshold

/-- Embedding of `_is_profitable`.  The recommended bet amount comes from the
external sizing service (`get_bet_amount`), so it is a parameter here; the code
clamps it with `max(bet_amount, bet_threshold)`.  The slippage comparison in the
source only emits a log warning and does not influence the result.  Returns
`(is_profitable, bet_amount)`. -/
def isProfitable (benchmarkingEnabled : Bool) (poolFee : ℕ) (sampledBet : Bet)
    (recommendedBetAmount betThreshold : ℤ) (vote : ℕ) : Bool × ℤ :=
  let bet := chooseBet benchmarkingEnabled poolFee sampledBet
  let betAmount := max recommendedBetAmount betThreshold
  let netBetAmount := removeFractionWei betAmount bet.fee
  let shares := calcBinaryShares bet netBetAmount vote
  let potentialNetProfit := shares.1 - netBetAmount - effectiveThreshold betThreshold
  (decide (0 ≤ potentialNetProfit), betAmount)

/-! ## Forecast resolution and the outcome payload

`MechInteractionResponse`, `PredictionResponse` and `DecisionReceivePayload`
are declared in modules outside the provided sources (`mech_interact_abci`,
`models.py`, `payloads.py`); they are modelled from the spec: a result-or-error
record (§6), a structured forecast (§3, with a null vote for a tie, §4.5),
and the outcome payload `{isProfitable, vote, confidence, stakeAmount}` (§6). -/

structure MechInteractionResponse where
  result : Option String := none
  error : String := ""
  deriving DecidableEq, Repr

/-- The possible outcomes of `_get_response`. -/
inductive GetResponseOutcome where
  | ok (r : MechInteractionResponse)
  | indexError
  deriving DecidableEq, Repr

/-- Embedding of `_get_response`.  When `mech_responses` is empty, the code
assigns an error `MechInteractionResponse` but lacks a `return`, so execution
falls through to `mech_responses[0]`, which raises an uncaught `IndexError`;
the assigned error response is dead.  Otherwise the first response is kept. -/
def getResponse (mechResponses : List MechInteractionResponse) : GetResponseOutcome :=
  match mechResponses with
  | [] => .indexError
  | r :: _ => .ok r

structure PredictionResponse where
  vote : Option ℕ
  p_yes : ℚ
  p_no : ℚ
  win_probability : ℚ
  confidence : ℚ
  deriving DecidableEq, Repr

/-- Embedding of `_get_decision` downstream of obtaining the mech response:
`resp = none` models `_mech_response` being unset (benchmarking data exhausted),
a response with `result = none` is the error case, and `parse` stands for
`PredictionResponse(**json.loads(...))` (`models.py` is outside the sources),
returning `none` on a parse failure.  Every failure path returns five `None`s. -/
def getDecision (resp : Option MechInteractionResponse)
    (parse : String → Option PredictionResponse) :
    Option ℕ × Option ℚ × Option ℚ × Option ℚ × Option ℚ :=
  match resp with
  | none => (none, none, none, none, none)
  | some r =>
    match r.result with
    | none => (none, none, none, none, none)
    | some txt =>
      match parse txt with
      | none => (none, none, none, none, none)
      | some p => (p.vote, some p.p_yes, some p.p_no, some p.win_probability, some p.confidence)

structure DecisionReceivePayload where
  isProfitable : Option Bool
  vote : Option ℕ
  confidence : Option ℚ
  betAmount : Option ℤ
  deriving DecidableEq, Repr

/-- Embedding of the payload construction in `async_act`: the profitability
evaluation runs only when all five decision values are present; otherwise
`is_profitable` and `bet_amount` stay `None` while the resolved `vote` and
`confidence` (possibly `None`) are forwarded as they are. -/
def asyncActPayload (dec : Option ℕ × Option ℚ × Option ℚ × Option ℚ × Option ℚ)
    (benchmarkingEnabled : Bool) (poolFee : ℕ) (sampledBet : Bet)
    (recommendedBetAmount betThreshold : ℤ) : DecisionReceivePayload :=
  match dec with
  | (some v, some _pYes, some _pNo, some _winProb, some c) =>
    let r := isProfitable benchmarkingEnabled poolFee sampledBet
      recommendedBetAmount betThreshold v
    ⟨some r.1, some v, some c, some r.2⟩
  | (v, _, _, _, c) => ⟨none, v, c, none⟩

/-! ## The benchmarking dataset

`_cut_dataset_row` reads the dataset with `csv.DictReader` and rewrites it
without the first data row.  We model the parsed dataset as a list of records
(each a list of field values); the first record is the header line.
`DictReader` yields the header as `fieldnames` (`none` for an empty file),
skips blank rows, and maps the header fields to a row's values, filling
missing values with `None` (extra values beyond the header go to a rest key,
which nothing here reads).  Byte-level re-serialization of the surviving rows
is modelled separately by `preserveQuotes` below. -/

/-- The `DictReader` row mapping: header fields paired with the row's values,
missing values filled with `none`. -/
def zipRecord (headers row : List String) : List (String × Option String) :=
  headers.zip (row.map some ++ List.replicate (headers.length - row.length) none)

inductive CutResult where
  | exhausted
  | corruptHeader
  | ok (record : List (String × Option String)) (newFile : List (List String))
  deriving DecidableEq, Repr

/-- Embedding of `_cut_dataset_row` at the record level.  `exhausted` is the
`return None` of the no-rows branch, `corruptHeader` the `return None` of the
`headers is None` branch (which logs a corrupted-dataset error and leaves the
file unchanged), and `ok record newFile` the successful branch, where the file
is atomically replaced by the header plus the remaining (non-blank) rows. -/
def cutDatasetRow (file : List (List String)) : CutResult :=
  let fieldnames := file.head?
  let rows := file.tail.filter (fun r => !r.isEmpty)
  match rows with
  | [] => .exhausted
  | row :: rest =>
    match fieldnames with
    | none => .corruptHeader
    | some headers => .ok (zipRecord headers row) (headers :: rest)

/-! ## Field re-serialization (`quotes_preserved`)

The quote constants `QUOTE`, `TWO_QUOTES` and `NEW_LINE` come from
`behaviours/base.py`, outside the sources; modelled from the spec (§4.1):
the quote character `"`, the doubled quote `""`, and the line terminator.
Fields are modelled as character lists so that every operation is a
structurally recursive, kernel-computable function. -/

def quoteChar : Char := '"'

/-- `field.replace(QUOTE, TWO_QUOTES)`: double every quote character. -/
def doubleQuotes : List Char → List Char
  | [] => []
  | c :: t =>
    if c = quoteChar then quoteChar :: quoteChar :: doubleQuotes t
    else c :: doubleQuotes t

/-- `TWO_QUOTES in field`: whether two consecutive quote characters occur. -/
def hasTwoQuotes : List Char → Bool
  | [] => false
  | [_] => false
  | a :: b :: t => (a = quoteChar && b = quoteChar) || hasTwoQuotes (b :: t)

/-- Embedding of the `quotes_preserved` loop body of `_cut_dataset_row`:
double the quotes of a field that contains the quote character, then wrap the
field in quotes when it contains a comma (the hard-coded `COMMA`, not the
configured separator) or a doubled quote. -/
def preserveQuotes (field : List Char) : List Char :=
  let f := if quoteChar ∈ field then doubleQuotes field else field
  if ',' ∈ f ∨ hasTwoQuotes f then quoteChar :: (f ++ [quoteChar]) else f

/-- `sep.join(quotes_preserved) + NEW_LINE`: the re-serialized data row. -/
def serializeRow (sep : Char) (fields : List (List Char)) : List Char :=
  List.intercalate [sep] (fields.map preserveQuotes) ++ ['\n']

/-- `sep.join(headers) + NEW_LINE`: the header is rewritten as a plain join,
with no re-quoting at all. -/
def serializeHeader (sep : Char) (headers : List (List Char)) : List Char :=
  List.intercalate [sep] headers ++ ['\n']

/-- The serialization `csv.writer` (minimal quoting) uses for a field, i.e.
the byte content a field has in a dataset written with delimiter `sep`:
quoted (with internal quotes doubled) exactly when it contains the delimiter,
the quote character, or a line break. -/
def canonicalField (sep : Char) (field : List Char) : List Char :=
  if sep ∈ field ∨ quoteChar ∈ field ∨ '\n' ∈ field ∨ '\r' ∈ field then
    quoteChar :: (doubleQuotes field ++ [quoteChar])
  else field

/-- A live-market pool snapshot whose marginal-prices array is absent, with
otherwise ordinary values; used to evaluate the missing-prices behaviour. -/
def betWithoutPrices : Bet :=
  { fee := 0
    outcomeSlotCount := 2
    outcomeTokenAmounts := [10 ^ 19, 10 ^ 19]
    outcomeTokenMarginalPrices := none
    scaledLiquidityMeasure := 10 }

/-! ## Helper lemmas -/

theorem doubleQuotes_eq_self {l : List Char} (h : quoteChar ∉ l) :
    doubleQuotes l = l := by
  induction l with
  | nil => rfl
  | cons c t ih =>
    simp only [List.mem_cons, not_or] at h
    simp only [doubleQuotes, if_neg (Ne.symm h.1)]
    rw [ih h.2]

theorem hasTwoQuotes_cons_of {c : Char} {l : List Char} (h : hasTwoQuotes l = true) :
    hasTwoQuotes (c :: l) = true := by
  cases l with
  | nil => simp [hasTwoQuotes] at h
  | cons b t => simp [hasTwoQuotes, h]

theorem hasTwoQuotes_doubleQuotes {l : List Char} (h : quoteChar ∈ l) :
    hasTwoQuotes (doubleQuotes l) = true := by
  induction l with
  | nil => simp at h
  | cons c t ih =>
    by_cases hc : c = quoteChar
    · subst hc
      simp [doubleQuotes, hasTwoQuotes]
    · have ht : quoteChar ∈ t := by
        rcases List.mem_cons.mp h with h | h
        · exact absurd h.symm hc
        · exact h
      simp only [doubleQuotes, if_neg hc]
      exact hasTwoQuotes_cons_of (ih ht)

theorem hasTwoQuotes_eq_false {l : List Char} (h : quoteChar ∉ l) :
    hasTwoQuotes l = false := by
  induction l with
  | nil => rfl
  | cons c t ih =>
    simp only [List.mem_cons, not_or] at h
    cases t with
    | nil => rfl
    | cons b t2 =>
      have hcq : c ≠ quoteChar := fun hh => h.1 hh.symm
      simp only [hasTwoQuotes, ih h.2, Bool.or_false]
      simp [hcq]

theorem mem_doubleQuotes_comma {l : List Char} :
    ',' ∈ doubleQuotes l ↔ ',' ∈ l := by
  induction l with
  | nil => simp [doubleQuotes]
  | cons c t ih =>
    by_cases hc : c = quoteChar
    · subst hc
      have hne : (',' : Char) ≠ quoteChar := by decide
      simp [doubleQuotes, List.mem_cons, ih, hne]
    · simp [doubleQuotes, if_neg hc, List.mem_cons, ih]

/-! ## Claims -/

/-- C2: in live mode with an empty `mech_responses` list, `_get_response` does
not return the error response it assigns: the missing `return` lets control
fall through to `mech_responses[0]`, raising an uncaught `IndexError` out of
the resolver instead of producing a `ResolutionError` value. -/
theorem c2_empty_responses_index_error :
    getResponse [] = GetResponseOutcome.indexError := rfl

/-- C6: the corrupted-header branch of `_cut_dataset_row` is unreachable: a
dataset file with a missing header line is empty, so the read hits the
no-rows branch first and is reported as benign corpus exhaustion (the caller
then logs that the benchmarking has finished), never as the fatal
configuration error the branch was written for. -/
theorem c6_missing_header_reported_as_exhaustion :
    cutDatasetRow [] = CutResult.exhausted ∧
    ∀ file : List (List String), cutDatasetRow file ≠ CutResult.corruptHeader := by
  refine ⟨rfl, ?_⟩
  intro file h
  cases file with
  | nil => simp [cutDatasetRow] at h
  | cons hd tl =>
    cases htl : tl.filter (fun r => !r.isEmpty) with
    | nil => simp [cutDatasetRow, htl] at h
    | cons row rest => simp [cutDatasetRow, htl] at h

/-- C10: in benchmarking mode the profitability evaluation always runs against
the fixed synthetic pool — two outcome slots, `int(10e18) = 10^19` tokens of
reserve on each side, marginal prices `0.5` and `0.5`, fee from the
configuration — and its result does not depend on the sampled live market. -/
theorem c10_benchmarking_uses_fixed_pool :
    ∀ (poolFee : ℕ) (sampledBet otherSampledBet : Bet) (recAmt thr : ℤ) (vote : ℕ),
      chooseBet true poolFee sampledBet = mockBet poolFee ∧
      (mockBet poolFee).outcomeSlotCount = 2 ∧
      (mockBet poolFee).outcomeTokenAmounts = [10 ^ 19, 10 ^ 19] ∧
      (mockBet poolFee).outcomeTokenMarginalPrices = some [⟨1, -1⟩, ⟨1, -1⟩] ∧
      F.toRat ⟨1, -1⟩ = 1 / 2 ∧
      (mockBet poolFee).fee = poolFee ∧
      isProfitable true poolFee sampledBet recAmt thr vote =
        isProfitable true poolFee otherSampledBet recAmt thr vote := by
  intro poolFee sampledBet otherSampledBet recAmt thr vote
  refine ⟨rfl, rfl, rfl, rfl, ?_, rfl, ?_⟩
  · norm_num [F.toRat, zpow_neg]
  · simp [isProfitable, chooseBet]

/-- C7: the applied threshold is the configured one when positive and exactly
`0` when the configured one is non-positive, and the verdict of
`_is_profitable` is `true` exactly when
`num_shares - net_bet_amount - threshold ≥ 0`. -/
theorem c7_threshold_and_verdict :
    ∀ (benchEnabled : Bool) (poolFee : ℕ) (sampledBet : Bet) (recAmt thr : ℤ) (vote : ℕ),
      effectiveThreshold thr = (if 0 < thr then thr else 0) ∧
      ((isProfitable benchEnabled poolFee sampledBet recAmt thr vote).1 = true ↔
        0 ≤ (calcBinaryShares (chooseBet benchEnabled poolFee sampledBet)
                (removeFractionWei (max recAmt thr)
                  (chooseBet benchEnabled poolFee sampledBet).fee) vote).1
            - removeFractionWei (max recAmt thr)
                (chooseBet benchEnabled poolFee sampledBet).fee
            - effectiveThreshold thr) := by
  intro benchEnabled poolFee sampledBet recAmt thr vote
  constructor
  · unfold effectiveThreshold
    split <;> split <;> omega
  · simp [isProfitable, decide_eq_true_iff]

/-- C7 witness: a concrete instantiation of `c7_threshold_and_verdict`. -/
theorem c7_witness :
    effectiveThreshold (-5) = (if 0 < (-5 : ℤ) then (-5 : ℤ) else 0) ∧
    ((isProfitable true 0 (mockBet 0) (2 * 10 ^ 18) (-5) 0).1 = true ↔
      0 ≤ (calcBinaryShares (chooseBet true 0 (mockBet 0))
              (removeFractionWei (max (2 * 10 ^ 18) (-5))
                (chooseBet true 0 (mockBet 0)).fee) 0).1
          - removeFractionWei (max (2 * 10 ^ 18) (-5))
              (chooseBet true 0 (mockBet 0)).fee
          - effectiveThreshold (-5)) :=
  c7_threshold_and_verdict true 0 (mockBet 0) (2 * 10 ^ 18) (-5) 0

/-- C8: `_cut_dataset_row` returns the header fields mapped to the first data
row's values and leaves the header plus the remaining rows, in order, in the
file; with no data rows it returns `None` (corpus exhausted). -/
theorem c8_next_record :
    ∀ (header : List String) (body : List (List String)),
      (body.filter (fun r => !r.isEmpty) = [] →
        cutDatasetRow (header :: body) = CutResult.exhausted) ∧
      (∀ (row : List String) (rest : List (List String)),
        body.filter (fun r => !r.isEmpty) = row :: rest →
        cutDatasetRow (header :: body) =
          CutResult.ok (zipRecord header row) (header :: rest)) ∧
      cutDatasetRow [] = CutResult.exhausted := by
  intro header body
  refine ⟨?_, ?_, rfl⟩
  · intro h
    simp [cutDatasetRow, h]
  · intro row rest h
    simp [cutDatasetRow, h]

/-- C8 witness: on a dataset of header plus one row the first call consumes
the row leaving only the header, and the second call reports exhaustion. -/
theorem c8_witness :
    cutDatasetRow [["q", "a"], ["x", "y"]] =
      CutResult.ok (zipRecord ["q", "a"] ["x", "y"]) [["q", "a"]] ∧
    cutDatasetRow [["q", "a"]] = CutResult.exhausted :=
  ⟨(c8_next_record ["q", "a"] [["x", "y"]]).2.1 ["x", "y"] [] rfl,
   (c8_next_record ["q", "a"] []).1 rfl⟩

/-- C9: in every payload built by `async_act`, the profitability flag is
present exactly when the stake amount is, and both are absent whenever any of
the five decision values (vote, p_yes, p_no, win_probability, confidence)
could not be resolved. -/
theorem c9_flag_iff_stake :
    ∀ (resp : Option MechInteractionResponse) (parse : String → Option PredictionResponse)
      (benchEnabled : Bool) (poolFee : ℕ) (sampledBet : Bet) (recAmt thr : ℤ),
      ((asyncActPayload (getDecision resp parse) benchEnabled poolFee sampledBet
          recAmt thr).isProfitable.isSome ↔
        (asyncActPayload (getDecision resp parse) benchEnabled poolFee sampledBet
          recAmt thr).betAmount.isSome) ∧
      (((getDecision resp parse).1 = none ∨ (getDecision resp parse).2.1 = none ∨
          (getDecision resp parse).2.2.1 = none ∨
          (getDecision resp parse).2.2.2.1 = none ∨
          (getDecision resp parse).2.2.2.2 = none) →
        (asyncActPayload (getDecision resp parse) benchEnabled poolFee sampledBet
          recAmt thr).isProfitable = none ∧
        (asyncActPayload (getDecision resp parse) benchEnabled poolFee sampledBet
          recAmt thr).betAmount = none) := by
  intro resp parse benchEnabled poolFee sampledBet recAmt thr
  rcases resp with _ | r
  · simp [getDecision, asyncActPayload]
  rcases hres : r.result with _ | txt
  · simp [getDecision, hres, asyncActPayload]
  rcases hp : parse txt with _ | p
  · simp [getDecision, hres, hp, asyncActPayload]
  rcases hv : p.vote with _ | v
  · simp [getDecision, hres, hp, hv, asyncActPayload]
  · simp [getDecision, hres, hp, hv, asyncActPayload]

/-- C9 witness: with the benchmarking data exhausted (no mech response), the
payload carries neither a profitability flag nor a stake. -/
theorem c9_witness :
    (asyncActPayload (getDecision none (fun _ => none)) false 0 (mockBet 0)
      0 0).isProfitable = none ∧
    (asyncActPayload (getDecision none (fun _ => none)) false 0 (mockBet 0)
      0 0).betAmount = none :=
  (c9_flag_iff_stake none (fun _ => none) false 0 (mockBet 0) 0 0).2 (Or.inl rfl)

/-- C1 counterexample: with the marginal prices absent, fee `0`, a recommended
stake of `2e18` and a threshold of `1e18`, `_is_profitable` returns
`(false, 2 * 10^18)` — the reported stake is the clamped bet amount, not `0`,
so the evaluation does not return the pair `(false, 0)`. -/
theorem c1_counterexample :
    isProfitable false 0 betWithoutPrices (2 * 10 ^ 18) (10 ^ 18) 0 =
      (false, 2 * 10 ^ 18) ∧
    ((false, 2 * 10 ^ 18) : Bool × ℤ) ≠ (false, 0) := by
  exact ⟨by decide, by decide⟩

/-- C1 amended: with the marginal prices absent, the share computation
short-circuits to `(0, 0)` shares before any division by a price, and the
evaluation returns the verdict `false` together with the clamped bet amount
(not a zero stake) whenever the net stake plus the effective threshold is
positive. -/
theorem c1_no_prices_no_shares :
    ∀ (poolFee : ℕ) (bet : Bet) (recAmt thr : ℤ) (vote : ℕ),
      bet.outcomeTokenMarginalPrices = none →
      calcBinaryShares bet (removeFractionWei (max recAmt thr) bet.fee) vote = (0, 0) ∧
      (0 < removeFractionWei (max recAmt thr) bet.fee + effectiveThreshold thr →
        isProfitable false poolFee bet recAmt thr vote = (false, max recAmt thr)) := by
  intro poolFee bet recAmt thr vote hnone
  have hcalc : ∀ n : ℤ, calcBinaryShares bet n vote = (0, 0) := by
    intro n
    simp [calcBinaryShares, hnone]
  refine ⟨hcalc _, ?_⟩
  intro hpos
  have h1 : isProfitable false poolFee bet recAmt thr vote =
      (decide (0 ≤ (0 : ℤ) - removeFractionWei (max recAmt thr) bet.fee
        - effectiveThreshold thr), max recAmt thr) := by
    simp [isProfitable, chooseBet, hcalc]
  rw [h1, decide_eq_false (by omega)]

/-- C1 witness: a concrete instantiation of `c1_no_prices_no_shares`. -/
theorem c1_witness :
    calcBinaryShares betWithoutPrices
      (removeFractionWei (max (2 * 10 ^ 18) (10 ^ 18)) betWithoutPrices.fee) 0 = (0, 0) ∧
    isProfitable false 0 betWithoutPrices (2 * 10 ^ 18) (10 ^ 18) 0 =
      (false, max (2 * 10 ^ 18) (10 ^ 18)) := by
  have h := c1_no_prices_no_shares 0 betWithoutPrices (2 * 10 ^ 18) (10 ^ 18) 0 rfl
  exact ⟨h.1, h.2 (by decide)⟩

/-- C3: the trade simulation does not preserve the constant-product invariant
up to one unit of truncation.  At the pool `[10^19, 10^19]` with injected
other-side shares `2 * 10^18` (the Scenario 1 pipeline), `int(k / ...)` uses
binary64 true division, so the remaining tokens are `8333333333333332992`
instead of `floor(10^38 / (12*10^18)) = 8333333333333333333`, and the
invariant gap `k - remaining * (reserve + otherShares) = 4096 * 10^18` exceeds
one unit of the division (the divisor `12 * 10^18`) by a wide margin. -/
theorem c3_invariant_broken_by_float_division :
    tokensRemainingInPool (10 ^ 38) (12 * 10 ^ 18) = 8333333333333332992 ∧
    Int.fdiv (10 ^ 38) (12 * 10 ^ 18) = 8333333333333333333 ∧
    (calcBinaryShares (mockBet 0) (2 * 10 ^ 18) 0).1 =
      2 * 10 ^ 18 + (10 ^ 19 - tokensRemainingInPool (10 ^ 38) (12 * 10 ^ 18)) ∧
    (10 ^ 38 : ℤ) - 8333333333333332992 * (12 * 10 ^ 18) = 4096 * 10 ^ 18 ∧
    (12 * 10 ^ 18 : ℤ) < 4096 * 10 ^ 18 := by
  exact ⟨by decide, by decide, by decide, by decide, by decide⟩

/-- C4: Scenario 1, evaluated on the embedded code.  The net stake, per-token
amount, traded tokens and selected shares match the claim, but the remaining
pool tokens are computed with binary64 true division as `8333333333333332992`,
not `floor(100e36 / 12e18) = 8333333333333333333`, so `num_shares` is
`3666666666666667008` rather than the claimed `3666666666666666667`; the
verdict formula itself holds (the scenario is profitable for threshold
`10^18`). -/
theorem c4_scenario_one_diverges :
    removeFractionWei (max (2 * 10 ^ 18) (10 ^ 18)) 0 = 2 * 10 ^ 18 ∧
    intDivFloat (2 * 10 ^ 18) 2 = ⟨7812500000000000, 7⟩ ∧
    (7812500000000000 : ℤ) * 2 ^ 7 = 10 ^ 18 ∧
    pyInt (fdiv (intDivFloat (2 * 10 ^ 18) 2) ⟨1, -1⟩) = 2 * 10 ^ 18 ∧
    calcBinaryShares (mockBet 0) (2 * 10 ^ 18) 0 =
      (3666666666666667008, 5 * 10 ^ 18) ∧
    tokensRemainingInPool (10 ^ 38) (12 * 10 ^ 18) ≠ 8333333333333333333 ∧
    (3666666666666667008 : ℤ) ≠ 3666666666666666667 ∧
    isProfitable true 0 (mockBet 0) (2 * 10 ^ 18) (10 ^ 18) 0 =
      (true, 2 * 10 ^ 18) := by
  exact ⟨by decide, by decide, by decide, by decide, by decide, by decide,
    by decide, by decide⟩

/-- C5 counterexample: the wrap trigger of the rewrite is the hard-coded
comma, not the configured separator.  With separator `;`, the field `a;b` is
not wrapped in quotes, so the rewritten row `a;b;c` no longer encodes the two
fields; and the header is rewritten as a plain join, so a header field
containing a comma loses its canonical quoted byte content. -/
theorem c5_counterexample :
    preserveQuotes ['a', ';', 'b'] = ['a', ';', 'b'] ∧
    (';' ∈ (['a', ';', 'b'] : List Char)) ∧
    serializeRow ';' [['a', ';', 'b'], ['c']] = ['a', ';', 'b', ';', 'c', '\n'] ∧
    serializeHeader ',' [['a', ',', 'b'], ['c']] = ['a', ',', 'b', ',', 'c', '\n'] ∧
    canonicalField ',' ['a', ',', 'b'] = [quoteChar, 'a', ',', 'b', quoteChar] ∧
    (['a', ',', 'b', ',', 'c', '\n'] : List Char) ≠
      canonicalField ',' ['a', ',', 'b'] ++ [','] ++ canonicalField ',' ['c'] ++ ['\n'] := by
  exact ⟨by decide, by decide, by decide, by decide, by decide, by decide⟩

/-- C5 amended: with the comma separator, every line-break-free field is
re-serialized exactly as csv minimal quoting would write it — quotes doubled,
and wrapped precisely when it contains a comma or a doubled quote — so
canonically written untouched rows keep their byte content; the header is a
plain join, byte-preserved only when its fields contain no separator, quote or
line break. -/
theorem c5_quoting_roundtrip :
    (∀ field : List Char, '\n' ∉ field → '\r' ∉ field →
      preserveQuotes field = canonicalField ',' field) ∧
    (∀ fields : List (List Char),
      (∀ f ∈ fields, '\n' ∉ f ∧ '\r' ∉ f) →
      serializeRow ',' fields =
        List.intercalate [','] (fields.map (canonicalField ',')) ++ ['\n']) ∧
    (∀ (sep : Char) (headers : List (List Char)),
      (∀ h ∈ headers, sep ∉ h ∧ quoteChar ∉ h ∧ '\n' ∉ h ∧ '\r' ∉ h) →
      serializeHeader sep headers =
        List.intercalate [sep] (headers.map (canonicalField sep)) ++ ['\n']) := by
  have main : ∀ field : List Char, '\n' ∉ field → '\r' ∉ field →
      preserveQuotes field = canonicalField ',' field := by
    intro field hn hr
    by_cases hq : quoteChar ∈ field
    · have h2 := hasTwoQuotes_doubleQuotes hq
      simp [preserveQuotes, canonicalField, hq, h2]
    · have hf : hasTwoQuotes field = false := hasTwoQuotes_eq_false hq
      have hd : doubleQuotes field = field := doubleQuotes_eq_self hq
      by_cases hcm : ',' ∈ field
      · simp [preserveQuotes, canonicalField, hq, hf, hcm, hd, hn, hr]
      · simp [preserveQuotes, canonicalField, hq, hf, hcm, hn, hr]
  refine ⟨main, ?_, ?_⟩
  · intro fields hps
    unfold serializeRow
    have : fields.map preserveQuotes = fields.map (canonicalField ',') :=
      List.map_congr_left (fun f hf => main f (hps f hf).1 (hps f hf).2)
    rw [this]
  · intro sep headers hplain
    unfold serializeHeader
    have : headers.map (canonicalField sep) = headers := by
      have h1 : headers.map (canonicalField sep) = headers.map id := by
        apply List.map_congr_left
        intro h hm
        rcases hplain h hm with ⟨h1, h2, h3, h4⟩
        simp [canonicalField, h1, h2, h3, h4]
      rw [h1, List.map_id]
    rw [this]

/-- C5 witness: concrete instantiations of `c5_quoting_roundtrip`. -/
theorem c5_witness :
    preserveQuotes ['a', '"', 'b'] = canonicalField ',' ['a', '"', 'b'] ∧
    preserveQuotes ['a', ',', 'b'] = canonicalField ',' ['a', ',', 'b'] :=
  ⟨c5_quoting_roundtrip.1 ['a', '"', 'b'] (by decide) (by decide),
   c5_quoting_roundtrip.1 ['a', ',', 'b'] (by decide) (by decide)⟩

/-- C6 witness: a concrete file on which the corrupted-header outcome is not
produced. -/
theorem c6_witness :
    cutDatasetRow [["h"]] ≠ CutResult.corruptHeader :=
  (c6_missing_header_reported_as_exhaustion).2 [["h"]]

/-- C10 witness: two different sampled markets give the same benchmarking
verdict and stake. -/
theorem c10_witness :
    isProfitable true 0 (mockBet 5) 5 3 0 = isProfitable true 0 (mockBet 7) 5 3 0 :=
  (c10_benchmarking_uses_fixed_pool 0 (mockBet 5) (mockBet 7) 5 3 0).2.2.2.2.2.2
